import Mathlib

/-!
Verification development for the feature-extraction core of the
Phishing-Detection-with-BERT repository (files `features.py`,
`ANALYSIS/HTMLFeatures.py`, `ANALYSIS/URLFeatures.py`).

Python strings are modelled as `List Char`; the Python string
primitives used by the source (`in`, `count`, `split`, `rfind`,
`startswith`-style prefix tests, `take`/`drop` slicing) are given
explicit executable models below, prefixed `py`.  Python `float`
arithmetic is idealised as real arithmetic (`ℝ`), with `round(x, 3)`
modelled by `round3`; case folding `str.lower()` is idealised by the
ASCII `Char.toLower`, and the character-class tests (`isupper`,
`isdigit`, `\s`, `\W`) by the corresponding ASCII predicates of `Char`.
A Python expression that can raise `ZeroDivisionError` is modelled in
`Option`: `pyDiv` returns `none` exactly when the divisor is zero.
-/

/-- Python substring-prefix test: `s[:len pat] == pat`. -/
def pyStartsWith : List Char → List Char → Bool
  | [], _ => true
  | _ :: _, [] => false
  | p :: ps, c :: cs => p == c && pyStartsWith ps cs

/-- Python `pat in s` substring membership test. -/
def pyIn (pat : List Char) : List Char → Bool
  | [] => pat.isEmpty
  | c :: cs => pyStartsWith pat (c :: cs) || pyIn pat cs

/-- Python single-character membership `c in s`. -/
def pyElem (c : Char) : List Char → Bool
  | [] => false
  | x :: xs => x == c || pyElem c xs

/-- First index at which `p` holds (Python `str.find` for a predicate),
`none` when there is no such index. -/
def pyFindIdx (p : Char → Bool) : List Char → Option ℕ
  | [] => none
  | c :: cs => if p c then some 0 else (pyFindIdx p cs).map (· + 1)

def pyTakeWhile (p : Char → Bool) : List Char → List Char
  | [] => []
  | c :: cs => if p c then c :: pyTakeWhile p cs else []

def pyDropWhile (p : Char → Bool) : List Char → List Char
  | [] => []
  | c :: cs => if p c then pyDropWhile p cs else c :: cs

/-- Split a string at every character satisfying `p`, keeping empty
segments — the behaviour of Python `str.split(sep)` for a one-character
separator when `p` is equality with that separator. -/
def pySplitP (p : Char → Bool) : List Char → List (List Char)
  | [] => [[]]
  | c :: cs =>
    if p c then [] :: pySplitP p cs
    else
      match pySplitP p cs with
      | [] => [[c]]
      | t :: ts => (c :: t) :: ts

/-- Python `str.split(sep)` for a single-character separator. -/
def pySplitChar (sep : Char) (s : List Char) : List (List Char) :=
  pySplitP (fun c => c == sep) s

/-- Python whitespace `str.split()`: split on every whitespace character
and discard the empty segments (equivalently, the maximal runs of
non-whitespace characters). -/
def pySplitWs (s : List Char) : List (List Char) :=
  (pySplitP (fun c => c.isWhitespace) s).filter (fun t => !t.isEmpty)

/-- Helper scanning indices `n, n-1, …, 0` for the highest one at which
`pat` occurs. -/
def rfindAux (pat s : List Char) : ℕ → ℤ
  | 0 => if pyStartsWith pat s then 0 else -1
  | n + 1 => if pyStartsWith pat (s.drop (n + 1)) then ((n + 1 : ℕ) : ℤ) else rfindAux pat s n

/-- Python `s.rfind(pat)`: highest index at which `pat` occurs as a
substring of `s`, and `-1` when it does not occur. -/
def pyRfind (pat s : List Char) : ℤ :=
  rfindAux pat s s.length

/-- Python `round(x, 3)` idealised over the reals. -/
noncomputable def round3 (x : ℝ) : ℝ :=
  ((round (x * 1000) : ℤ) : ℝ) / 1000

/-- Python true division, raising (`none`) on a zero divisor, as in
`a / b` inside the entropy list comprehension. -/
noncomputable def pyDiv (a b : ℝ) : Option ℝ :=
  if b = 0 then none else some (a / b)

/-- The probability list of the entropy computation: for each character
`c` of `cs`, `t.count c / len t` via `pyDiv` (so the whole list is
`none` as soon as one division raises), mirroring
`[text.count(c) / len(text) for c in set(text)]`. -/
noncomputable def pyProbs (t : List Char) : List Char → Option (List ℝ)
  | [] => some []
  | c :: cs =>
    match pyDiv ((t.count c : ℝ)) ((t.length : ℝ)), pyProbs t cs with
    | some p, some ps => some (p :: ps)
    | _, _ => none

/-- One summand `p * log p / log 2` of the entropy sum, at the
probability of character `c` in `t`. -/
noncomputable def probTerm (t : List Char) (c : Char) : ℝ :=
  ((t.count c : ℝ) / (t.length : ℝ)) * Real.log ((t.count c : ℝ) / (t.length : ℝ)) / Real.log 2

/-- The (always-defined) entropy value `round(-Σ p·log2 p, 3)` over the
distinct characters of `t` (no case folding here; callers fold first). -/
noncomputable def entropyFormula (t : List Char) : ℝ :=
  round3 (-((t.dedup.map (probTerm t)).sum))

/-- `HTMLFeatures.__get_entropy` of `features.py` and of
`ANALYSIS/HTMLFeatures.py`/`ANALYSIS/URLFeatures.py`: lowercase the
text, build the probability list (each division may raise), and return
`round(-sum([p * log(p) / log(2.0) for p in probs]), 3)`.  `set(text)`
is modelled by `List.dedup`; the sum does not depend on the enumeration
order of the set. -/
noncomputable def getEntropy? (text : List Char) : Option ℝ :=
  (pyProbs (text.map Char.toLower) (text.map Char.toLower).dedup).map
    (fun probs => round3 (-((probs.map (fun p => p * Real.log p / Real.log 2)).sum)))

lemma pySplitP_ne_nil (p : Char → Bool) (l : List Char) : pySplitP p l ≠ [] := by
  induction l with
  | nil => simp [pySplitP]
  | cons c cs ih =>
    simp only [pySplitP]
    split
    · simp
    · cases h : pySplitP p cs with
      | nil => exact absurd h ih
      | cons t ts => simp [h]

lemma pyProbs_eq_of_len_ne_zero (t : List Char) (h : (t.length : ℝ) ≠ 0) :
    ∀ cs : List Char, pyProbs t cs = some (cs.map (fun c => ((t.count c : ℝ) / (t.length : ℝ)))) := by
  intro cs
  induction cs with
  | nil => simp [pyProbs]
  | cons c cs ih => simp [pyProbs, pyDiv, h, ih]

/-- The entropy computation is total and its value is `entropyFormula`
of the lowercased text: for empty text the probability list is empty so
no division is performed; for non-empty text the divisor is positive. -/
lemma getEntropy?_eq (text : List Char) :
    getEntropy? text = some (entropyFormula (text.map Char.toLower)) := by
  by_cases h : text.map Char.toLower = []
  · simp [getEntropy?, entropyFormula, h, pyProbs]
  · have hl : ((text.map Char.toLower).length : ℝ) ≠ 0 := by
      simpa [List.length_eq_zero] using h
    simp only [getEntropy?, pyProbs_eq_of_len_ne_zero _ hl, Option.map_some', entropyFormula,
      List.map_map]
    rfl

/-!
### The HTML extractor

`HTMLFeatures.__init__` stores the raw HTML string and `PyQuery(html)`.
`PyQuery` is an external library; its parse result is modelled
abstractly by `PyQueryDoc`, which records exactly the query results the
accessors read: the visible page text `pq.text()`, the per-element text
of each `<script>` element (`pq('script')` in document order, so the
number of script elements is the length of that list, and
`pq('script').text()` is the space-join of the entries), the sizes of
the other selector result sets, and the `src` attribute of each
script/iframe/frame/embed/form/object element.
-/

structure PyQueryDoc where
  text : List Char
  scriptTexts : List (List Char)
  allCount : ℕ
  hiddenClassCount : ℕ
  hiddenIdCount : ℕ
  hiddenVisibilityCount : ℕ
  hiddenDisplayCount : ℕ
  iframeCount : ℕ
  frameCount : ℕ
  objectCount : ℕ
  embedCount : ℕ
  internalLinkCount : ℕ
  externalLinkCount : ℕ
  includedSrcAttrs : List (Option (List Char))
  htmlCount : ℕ
  bodyCount : ℕ
  headCount : ℕ

/-- The state of one `HTMLFeatures` instance: the raw HTML and the
parse result built once in `__init__`. -/
structure HTMLFeatures where
  html : List Char
  pq : PyQueryDoc

/-- `HTMLFeatures.__init__`: the parse step `PyQuery(html)` is an
external deterministic function `parse`. -/
def HTMLFeatures.init (parse : List Char → PyQueryDoc) (html : List Char) : HTMLFeatures :=
  ⟨html, parse html⟩

/-- The constant list `self.suspicious_functions`. -/
def suspiciousFunctions : List (List Char) :=
  ["eval".data, "unescape".data, "document.write".data, "innerhtml".data]

/-- Python `string.punctuation`. -/
def punctuationChars : List Char :=
  "!\x22#$%&\x27()*+,-./:;<=>?@[\x5c]^_\x60\x7b|\x7d~".data

namespace HTMLFeatures

/-- Join a list of strings with single spaces (Python
`' '.join(texts)`). -/
def pyJoinSpace : List (List Char) → List Char
  | [] => []
  | [t] => t
  | t :: ts => t ++ ' ' :: pyJoinSpace ts

/-- `pq('script').text()`: PyQuery joins the text of the matched
elements with a single space. -/
def scriptsText (e : HTMLFeatures) : List Char :=
  pyJoinSpace e.pq.scriptTexts

noncomputable def page_entropy (e : HTMLFeatures) : ℝ :=
  entropyFormula (e.pq.text.map Char.toLower)

def number_of_script_tags (e : HTMLFeatures) : ℕ :=
  e.pq.scriptTexts.length

def length_of_html (e : HTMLFeatures) : ℕ :=
  e.pq.text.length

def number_of_page_tokens (e : HTMLFeatures) : ℕ :=
  (pySplitWs (e.pq.text.map Char.toLower)).length

def number_of_sentences (e : HTMLFeatures) : ℕ :=
  (pySplitChar '.' e.pq.text).length

def number_of_punctuations (e : HTMLFeatures) : ℕ :=
  (e.pq.text.filter (fun c =>
    pyElem c punctuationChars && !pyElem c ['<', '>', '/'])).length

def number_of_capitalizations (e : HTMLFeatures) : ℕ :=
  (e.html.filter Char.isUpper).length

noncomputable def average_number_of_tokens_in_sentence (e : HTMLFeatures) : ℝ :=
  round3 ((((pySplitChar '.' e.pq.text).map (fun s => (pySplitWs s).length)).sum : ℝ) /
    (((pySplitChar '.' e.pq.text).map (fun s => (pySplitWs s).length)).length : ℝ))

def number_of_html_tags (e : HTMLFeatures) : ℕ :=
  e.pq.allCount

def number_of_hidden_tags (e : HTMLFeatures) : ℕ :=
  e.pq.hiddenClassCount + e.pq.hiddenIdCount + e.pq.hiddenVisibilityCount + e.pq.hiddenDisplayCount

def number_iframes (e : HTMLFeatures) : ℕ :=
  e.pq.iframeCount + e.pq.frameCount

def number_objects (e : HTMLFeatures) : ℕ :=
  e.pq.objectCount

def number_embeds (e : HTMLFeatures) : ℕ :=
  e.pq.embedCount

def number_of_internal_hyperlinks (e : HTMLFeatures) : ℕ :=
  e.pq.internalLinkCount

def number_of_external_hyperlinks (e : HTMLFeatures) : ℕ :=
  e.pq.externalLinkCount

def number_of_whitespace (e : HTMLFeatures) : ℕ :=
  (e.html.filter (fun c => c == ' ')).length

/-- `[i for i in toi if i]`: an attribute counts when it is present and
non-empty (Python truthiness of `None` and `''`). -/
def number_of_included_elements (e : HTMLFeatures) : ℕ :=
  (e.pq.includedSrcAttrs.filter (fun a =>
    match a with
    | some s => !s.isEmpty
    | none => false)).length

def number_of_double_documents (e : HTMLFeatures) : ℕ :=
  (if 0 < e.pq.htmlCount then e.pq.htmlCount - 1 else 0) +
  (if 0 < e.pq.bodyCount then e.pq.bodyCount - 1 else 0) +
  (if 0 < e.pq.headCount then e.pq.headCount - 1 else 0)

noncomputable def average_script_length (e : HTMLFeatures) : ℝ :=
  if 0 < (e.pq.scriptTexts.map List.length).length then
    round3 (((e.pq.scriptTexts.map List.length).sum : ℝ) /
      ((e.pq.scriptTexts.map List.length).length : ℝ))
  else 0

noncomputable def average_script_entropy (e : HTMLFeatures) : ℝ :=
  if 0 < (e.pq.scriptTexts.map (fun s => entropyFormula (s.map Char.toLower))).length then
    round3 ((e.pq.scriptTexts.map (fun s => entropyFormula (s.map Char.toLower))).sum /
      ((e.pq.scriptTexts.map (fun s => entropyFormula (s.map Char.toLower))).length : ℝ))
  else 0

def number_of_suspicious_functions (e : HTMLFeatures) : ℕ :=
  (suspiciousFunctions.map (fun f =>
    if pyIn f ((scriptsText e).map Char.toLower) then 1 else 0)).sum

/-- Python word characters (`\w` of `re`, ASCII-idealised). -/
def isWordChar (c : Char) : Bool :=
  c.isAlphanum || c == '_'

/-- `re.split(r'\s+|\W', script)` up to its empty segments: every
non-word character (whitespace included) is consumed by some separator
match, so the non-empty segments are exactly the maximal runs of word
characters; splitting at every single non-word character produces the
same non-empty segments. -/
def scriptWords (e : HTMLFeatures) : List (List Char) :=
  pySplitP (fun c => !isWordChar c) (scriptsText e)

/-- The reserved-word list of `keywords_to_words_ratio`. -/
def jsKeywords : List (List Char) :=
  ["var".data, "const".data, "let".data, "for".data, "while".data, "if".data, "return".data]

noncomputable def keywords_to_words_ratio (e : HTMLFeatures) : ℝ :=
  if 0 < ((scriptWords e).filter (fun w => !w.isEmpty)).length then
    round3 ((((scriptWords e).filter (fun w => !w.isEmpty && jsKeywords.contains w)).length : ℝ) /
      (((scriptWords e).filter (fun w => !w.isEmpty)).length : ℝ))
  else 0

/-- The 16 DOM-mutation patterns of `number_of_dom_modifying_functions`,
without their common `\s*\(` tail. -/
def domFunctionNames : List (List Char) :=
  ["createElement".data, "appendChild".data, "removeChild".data, "replaceChild".data,
   "insertBefore".data, "getElementsByClassName".data, "getElementsByTagName".data,
   "getElementById".data, "querySelector".data, "querySelectorAll".data,
   "setAttribute".data, "getAttribute".data, "removeAttribute".data,
   "clearAttributes".data, "insertAdjacentElement".data, "replaceNode".data]

/-- A match of the regex `name\s*\(` starting at index `i` of `s`:
the literal name, then a run of whitespace, then `(`.  Because `\s*`
only backtracks over whitespace and `(` is not whitespace, the regex
matches at `i` iff the character after the maximal whitespace run
following the name is `(`. -/
def domMatchAt (name s : List Char) (i : ℕ) : Bool :=
  pyStartsWith name (s.drop i) &&
    pyStartsWith ['('] (pyDropWhile Char.isWhitespace ((s.drop i).drop name.length))

/-- `len(re.findall(regex, text))` for one `name\s*\(` pattern.
`findall` counts non-overlapping matches left to right; since none of
the 16 names has a proper border and a match consists of the name,
whitespace and `(`, two matches can never overlap, so the number of
match positions equals the `findall` count. -/
def countPatternMatches (name s : List Char) : ℕ :=
  ((List.range (s.length + 1)).filter (fun i => domMatchAt name s i)).length

def number_of_dom_modifying_functions (e : HTMLFeatures) : ℕ :=
  (domFunctionNames.map (fun n => countPatternMatches n (scriptsText e))).sum

end HTMLFeatures

/-- A FeatureMap value: Python numbers (ints and 3-decimal-rounded
floats, collapsed onto `ℝ`) or booleans. -/
inductive FVal where
  | num : ℝ → FVal
  | bool : Bool → FVal

def FVal.isBool : FVal → Bool
  | .bool _ => true
  | .num _ => false

/-- `HTMLFeatures.get_features` of `features.py`: the ordered dict of
the 23 features, each accessor called once. -/
noncomputable def HTMLFeatures.get_features (e : HTMLFeatures) : List (List Char × FVal) :=
  [("suspicious_func_num".data, .num (e.number_of_suspicious_functions : ℝ)),
   ("page_entropy".data, .num (e.page_entropy)),
   ("script_tags_num".data, .num (e.number_of_script_tags : ℝ)),
   ("html_length".data, .num (e.length_of_html : ℝ)),
   ("tokens_num".data, .num (e.number_of_page_tokens : ℝ)),
   ("sentences_num".data, .num (e.number_of_sentences : ℝ)),
   ("punctuation_num".data, .num (e.number_of_punctuations : ℝ)),
   ("capitalization_num".data, .num (e.number_of_capitalizations : ℝ)),
   ("avg_sentence_tokens_num".data, .num (e.average_number_of_tokens_in_sentence)),
   ("html_tags_num".data, .num (e.number_of_html_tags : ℝ)),
   ("hidden_tags_num".data, .num (e.number_of_hidden_tags : ℝ)),
   ("iframe_num".data, .num (e.number_iframes : ℝ)),
   ("objects_num".data, .num (e.number_objects : ℝ)),
   ("embeds_num".data, .num (e.number_embeds : ℝ)),
   ("internal_links_num".data, .num (e.number_of_internal_hyperlinks : ℝ)),
   ("external_links_num".data, .num (e.number_of_external_hyperlinks : ℝ)),
   ("whitespaces_num".data, .num (e.number_of_whitespace : ℝ)),
   ("included_elements_num".data, .num (e.number_of_included_elements : ℝ)),
   ("double_doc_num".data, .num (e.number_of_double_documents : ℝ)),
   ("keywords_to_words_ratio".data, .num (e.keywords_to_words_ratio)),
   ("dom_mod_func_num".data, .num (e.number_of_dom_modifying_functions : ℝ)),
   ("avg_script_len".data, .num (e.average_script_length)),
   ("avg_script_entropy".data, .num (e.average_script_entropy))]

/-!
### The URL parser

`urllib.parse.urlparse` is modelled after the CPython implementation:
find the first `:`; if it is at a positive index, the first character is
an ASCII letter and everything before the `:` is a scheme character,
that part (lowercased) is the scheme, otherwise the `scheme` argument
(the default, `''` in `features.py` and `'http'` in
`ANALYSIS/URLFeatures.py`) is used; a netloc is taken only after a
leading `//`, up to the next `/`, `?` or `#`; the fragment is everything
after the first `#`; the query everything after the first `?` of the
rest; `urlparse` finally splits `;params` off the path (after the last
`/` when the path has one).
-/

structure UrlParsed where
  scheme : List Char
  netloc : List Char
  path : List Char
  params : List Char
  query : List Char
  fragment : List Char
deriving DecidableEq

def isSchemeChar (c : Char) : Bool :=
  c.isAlpha || c.isDigit || c == '+' || c == '-' || c == '.'

/-- Scheme detection of `urlsplit`; returns the lowercased scheme (or
`[]` when none is recognised) and the remainder. -/
def pySplitScheme (url : List Char) : List Char × List Char :=
  match pyFindIdx (fun c => c == ':') url with
  | some i =>
    if 0 < i ∧ (url.headD ' ').isAlpha = true ∧ (url.take i).all isSchemeChar = true then
      ((url.take i).map Char.toLower, url.drop (i + 1))
    else ([], url)
  | none => ([], url)

/-- Netloc detection of `urlsplit`: after a leading `//`, up to the
next `/`, `?` or `#`. -/
def pySplitNetloc (s : List Char) : List Char × List Char :=
  if pyStartsWith ['/', '/'] s then
    ((pyTakeWhile (fun c => !(c == '/' || c == '?' || c == '#')) (s.drop 2)),
     (s.drop 2).drop ((pyTakeWhile (fun c => !(c == '/' || c == '?' || c == '#')) (s.drop 2)).length))
  else ([], s)

/-- Python `s.split(sep, 1)` as a pair: the part before the first `sep`
and the part after it (`[]` when `sep` does not occur). -/
def pyBreakOn (sep : Char) (s : List Char) : List Char × List Char :=
  (pyTakeWhile (fun c => !(c == sep)) s, (pyDropWhile (fun c => !(c == sep)) s).drop 1)

/-- `_splitparams` as applied by `urlparse`: when the path contains a
`;`, split at the first `;` after the last `/` (or the first `;` at all
when there is no `/`). -/
def pySplitParams (path : List Char) : List Char × List Char :=
  if pyElem ';' path then
    if pyElem '/' path then
      match pyFindIdx (fun c => c == ';') (path.drop (pyRfind ['/'] path).toNat) with
      | some k =>
        (path.take ((pyRfind ['/'] path).toNat + k), path.drop ((pyRfind ['/'] path).toNat + k + 1))
      | none => (path, [])
    else
      match pyFindIdx (fun c => c == ';') path with
      | some i => (path.take i, path.drop (i + 1))
      | none => (path, [])
  else (path, [])

/-- `urlparse(url, default)`. -/
def pyUrlparse (url default : List Char) : UrlParsed where
  scheme := if (pySplitScheme url).1.isEmpty then default else (pySplitScheme url).1
  netloc := (pySplitNetloc (pySplitScheme url).2).1
  path :=
    (pySplitParams (pyBreakOn '?' (pyBreakOn '#' (pySplitNetloc (pySplitScheme url).2).2).1).1).1
  params :=
    (pySplitParams (pyBreakOn '?' (pyBreakOn '#' (pySplitNetloc (pySplitScheme url).2).2).1).1).2
  query := (pyBreakOn '?' (pyBreakOn '#' (pySplitNetloc (pySplitScheme url).2).2).1).2
  fragment := (pyBreakOn '#' (pySplitNetloc (pySplitScheme url).2).2).2

/-!
### The URL extractor
-/

/-- The state of one `URLFeatures` instance: the raw URL and the parse
result built once in `__init__`. -/
structure URLFeatures where
  url : List Char
  urlparsed : UrlParsed

/-- `URLFeatures.__init__` of `features.py`: `urlparse(url)` — no
default scheme argument, so the default is the empty string. -/
def URLFeatures.init (url : List Char) : URLFeatures :=
  ⟨url, pyUrlparse url []⟩

/-- The `self.shortening_services` alternation of literal hostnames
(each `\.` unescaped to `.`), in source order. -/
def shorteningServices : List (List Char) :=
  ["bit.ly".data, "goo.gl".data, "shorte.st".data, "go2l.ink".data, "x.co".data,
   "ow.ly".data, "t.co".data, "tinyurl".data, "tr.im".data, "is.gd".data, "cli.gs".data,
   "yfrog.com".data, "migre.me".data, "ff.im".data, "tiny.cc".data, "url4.eu".data,
   "twit.ac".data, "su.pr".data, "twurl.nl".data, "snipurl.com".data,
   "short.to".data, "BudURL.com".data, "ping.fm".data, "post.ly".data, "Just.as".data,
   "bkite.com".data, "snipr.com".data, "fic.kr".data, "loopt.us".data,
   "doiop.com".data, "short.ie".data, "kl.am".data, "wp.me".data, "rubyurl.com".data,
   "om.ly".data, "to.ly".data, "bit.do".data, "t.co".data, "lnkd.in".data, "db.tt".data,
   "qr.ae".data, "adf.ly".data, "goo.gl".data, "bitly.com".data, "cur.lv".data,
   "tinyurl.com".data, "ow.ly".data, "bit.ly".data, "ity.im".data, "q.gs".data,
   "is.gd".data, "po.st".data, "bc.vc".data, "twitthis.com".data, "u.to".data,
   "j.mp".data, "buzurl.com".data, "cutt.us".data, "u.bb".data, "yourls.org".data,
   "x.co".data, "prettylinkpro.com".data, "scrnch.me".data, "filoops.info".data,
   "vzturl.com".data, "qr.net".data, "1url.com".data, "tweez.me".data, "v.gd".data,
   "tr.im".data, "link.zip.net".data]

namespace URLFeatures

noncomputable def entropy (e : URLFeatures) : ℝ :=
  entropyFormula (e.url.map Char.toLower)

def length (e : URLFeatures) : ℕ :=
  e.url.length

def path_length (e : URLFeatures) : ℕ :=
  e.urlparsed.path.length

def host_length (e : URLFeatures) : ℕ :=
  e.urlparsed.netloc.length

/-- `re.match(r"^\d{1,3}\.\d{1,3}\.\d{1,3}\.\d{1,3}$", host)`: the host
matches iff it is exactly four dot-separated groups of one to three
digits. -/
def host_is_ip (e : URLFeatures) : Bool :=
  match pySplitChar '.' e.urlparsed.netloc with
  | [a, b, c, d] =>
    [a, b, c, d].all (fun g => 0 < g.length && g.length ≤ 3 && g.all Char.isDigit)
  | _ => false

/-- `len(netloc.split(':')) > 1 and netloc.split(':')[-1].isdigit()`
(Python `''.isdigit()` is `False`). -/
def has_port (e : URLFeatures) : Bool :=
  1 < (pySplitChar ':' e.urlparsed.netloc).length &&
    (!((pySplitChar ':' e.urlparsed.netloc).getLastD []).isEmpty &&
      ((pySplitChar ':' e.urlparsed.netloc).getLastD []).all Char.isDigit)

def number_of_digits (e : URLFeatures) : ℕ :=
  (e.url.filter Char.isDigit).length

def number_of_parameters (e : URLFeatures) : ℕ :=
  if e.urlparsed.query.isEmpty then 0 else (pySplitChar '&' e.urlparsed.query).length

def is_encoded (e : URLFeatures) : Bool :=
  pyIn "%".data (e.url.map Char.toLower)

def num_encoded_char (e : URLFeatures) : ℕ :=
  (e.url.filter (fun c => c == '%')).length

def number_of_subdirectories (e : URLFeatures) : ℕ :=
  (pySplitChar '/' e.urlparsed.path).length

def number_of_periods (e : URLFeatures) : ℕ :=
  (e.url.filter (fun c => c == '.')).length

def prefix_suffix_presence (e : URLFeatures) : Bool :=
  pyIn "-".data e.urlparsed.netloc

/-- `re.search(self.shortening_services, url)`: some alternative of the
alternation occurs somewhere in the URL. -/
def use_shortening_services (e : URLFeatures) : Bool :=
  shorteningServices.any (fun p => pyIn p e.url)

def has_double_slash_in_wrong_position (e : URLFeatures) : Bool :=
  decide (7 < pyRfind "//".data e.url)

def has_haveat_sign (e : URLFeatures) : Bool :=
  pyIn "@".data e.url

def has_client_in_string (e : URLFeatures) : Bool :=
  pyIn "client".data (e.url.map Char.toLower)

def has_admin_in_string (e : URLFeatures) : Bool :=
  pyIn "admin".data (e.url.map Char.toLower)

def has_server_in_string (e : URLFeatures) : Bool :=
  pyIn "server".data (e.url.map Char.toLower)

def has_login_in_string (e : URLFeatures) : Bool :=
  pyIn "login".data (e.url.map Char.toLower)

/-- `URLFeatures.get_features` of `features.py`: the ordered dict of
the 19 features. -/
noncomputable def get_features (e : URLFeatures) : List (List Char × FVal) :=
  [("use_shortening_service".data, .bool (e.use_shortening_services)),
   ("prefix_suffix_presence".data, .bool (e.prefix_suffix_presence)),
   ("has_double_slash".data, .bool (e.has_double_slash_in_wrong_position)),
   ("has_haveat_sign".data, .bool (e.has_haveat_sign)),
   ("has_port".data, .bool (e.has_port)),
   ("has_admin_keyword".data, .bool (e.has_admin_in_string)),
   ("has_server_keyword".data, .bool (e.has_server_in_string)),
   ("has_login_keyword".data, .bool (e.has_login_in_string)),
   ("has_client_keyword".data, .bool (e.has_client_in_string)),
   ("host_is_ip".data, .bool (e.host_is_ip)),
   ("is_encoded".data, .bool (e.is_encoded)),
   ("length".data, .num (e.length : ℝ)),
   ("path_length".data, .num (e.path_length : ℝ)),
   ("host_length".data, .num (e.host_length : ℝ)),
   ("entropy".data, .num (e.entropy)),
   ("digits_num".data, .num (e.number_of_digits : ℝ)),
   ("subdirectories_num".data, .num (e.number_of_subdirectories : ℝ)),
   ("periods_num".data, .num (e.number_of_periods : ℝ)),
   ("params_num".data, .num (e.number_of_parameters : ℝ))]

end URLFeatures

/-!
### The superseded `ANALYSIS` revision

Only the members that the claims touch are modelled:
`URLFeatures.__init__` (which passes the default scheme `'http'` to
`urlparse`), `URLFeatures.number_of_fragments`, and
`HTMLFeatures.has_right_click_disabled`.
-/

namespace Analysis

/-- `ANALYSIS/URLFeatures.py` `__init__`: `urlparse(url, 'http')`. -/
def initURLFeatures (url : List Char) : URLFeatures :=
  ⟨url, pyUrlparse url "http".data⟩

/-- `ANALYSIS/URLFeatures.py` `number_of_fragments`:
`len(frags.split('#')) - 1 if frags == '' else 0`. -/
def number_of_fragments (e : URLFeatures) : ℕ :=
  if e.urlparsed.fragment.isEmpty then
    (pySplitChar '#' e.urlparsed.fragment).length - 1
  else 0

/-- `ANALYSIS/HTMLFeatures.py` `has_right_click_disabled`:
`'event.button==2' in self.html.lower()`. -/
def has_right_click_disabled (html : List Char) : Bool :=
  pyIn "event.button==2".data (html.map Char.toLower)

end Analysis

/-!
### Concrete fixtures and shared lemmas
-/

/-- The parse result of a document with no matching elements and no
visible text (what PyQuery yields for trivial input). -/
def emptyDoc : PyQueryDoc :=
  ⟨[], [], 0, 0, 0, 0, 0, 0, 0, 0, 0, 0, 0, [], 0, 0, 0⟩

/-- A parse result with two `<html>` elements and one `<body>` and one
`<head>` element. -/
def docTwoHtml : PyQueryDoc :=
  { emptyDoc with htmlCount := 2, bodyCount := 1, headCount := 1 }

/-- A parse result whose only script element has text `eval(x)`. -/
def scriptDoc : PyQueryDoc :=
  { emptyDoc with scriptTexts := ["eval(x)".data] }

/-- A raw HTML string containing the right-click-disabling token. -/
def rcHtml : List Char :=
  "if (event.button==2) return false".data

lemma pyFindIdx_eq_none {p : Char → Bool} {l : List Char} (h : ∀ c ∈ l, p c = false) :
    pyFindIdx p l = none := by
  induction l with
  | nil => rfl
  | cons c cs ih =>
    simp only [pyFindIdx, h c (List.mem_cons_self c cs), if_false, Bool.false_eq_true]
    rw [ih (fun x hx => h x (List.mem_cons_of_mem c hx))]
    rfl

lemma pyTakeWhile_eq_self {p : Char → Bool} {l : List Char} (h : ∀ c ∈ l, p c = true) :
    pyTakeWhile p l = l := by
  induction l with
  | nil => rfl
  | cons c cs ih =>
    simp only [pyTakeWhile, h c (List.mem_cons_self c cs), if_true]
    rw [ih (fun x hx => h x (List.mem_cons_of_mem c hx))]

lemma pyDropWhile_eq_nil {p : Char → Bool} {l : List Char} (h : ∀ c ∈ l, p c = true) :
    pyDropWhile p l = [] := by
  induction l with
  | nil => rfl
  | cons c cs ih =>
    simp only [pyDropWhile, h c (List.mem_cons_self c cs), if_true]
    exact ih (fun x hx => h x (List.mem_cons_of_mem c hx))

lemma pyElem_eq_false {c : Char} {l : List Char} (h : c ∉ l) : pyElem c l = false := by
  induction l with
  | nil => rfl
  | cons x xs ih =>
    simp only [pyElem, Bool.or_eq_false_iff]
    constructor
    · exact beq_eq_false_iff_ne.mpr (fun hxc => h (hxc ▸ List.mem_cons_self x xs))
    · exact ih (fun hx => h (List.mem_cons_of_mem x hx))

lemma list_sum_nonpos {l : List ℝ} (h : ∀ x ∈ l, x ≤ 0) : l.sum ≤ 0 := by
  induction l with
  | nil => simp
  | cons a l ih =>
    rw [List.sum_cons]
    exact add_nonpos (h a (List.mem_cons_self a l)) (ih (fun x hx => h x (List.mem_cons_of_mem a hx)))

lemma round3_nonneg {x : ℝ} (hx : 0 ≤ x) : 0 ≤ round3 x := by
  unfold round3
  apply div_nonneg _ (by norm_num)
  have h0 : (0 : ℤ) ≤ round (x * 1000) := by
    rw [round_eq]
    apply Int.floor_nonneg.mpr
    nlinarith
  exact_mod_cast h0

lemma entropyFormula_nonneg (t : List Char) : 0 ≤ entropyFormula t := by
  unfold entropyFormula
  apply round3_nonneg
  rw [neg_nonneg]
  apply list_sum_nonpos
  intro x hx
  rw [List.mem_map] at hx
  obtain ⟨c, hc, rfl⟩ := hx
  have hct : c ∈ t := List.mem_dedup.mp hc
  have hlen : 0 < t.length := List.length_pos.mpr (by rintro rfl; simp at hct)
  have hcount : 0 < t.count c := List.count_pos_iff.mpr hct
  unfold probTerm
  set p : ℝ := (t.count c : ℝ) / (t.length : ℝ) with hp
  have hp0 : 0 < p := div_pos (by exact_mod_cast hcount) (by exact_mod_cast hlen)
  have hp1 : p ≤ 1 := by
    rw [hp, div_le_one (by exact_mod_cast hlen)]
    exact_mod_cast List.count_le_length c t
  have hlog : Real.log p ≤ 0 := Real.log_nonpos hp0.le hp1
  have hmul : p * Real.log p ≤ 0 := mul_nonpos_iff.mpr (Or.inl ⟨hp0.le, hlog⟩)
  have hlog2 : 0 < Real.log 2 := Real.log_pos (by norm_num)
  exact div_nonpos_of_nonpos_of_nonneg hmul hlog2.le

/-!
### Claims
-/

/-- Claim C1: the extractors are pure and deterministic — constructing
two extractor instances on identical input (with the external parser a
fixed deterministic function) and calling the aggregate accessor on
each, or calling it repeatedly on the same instance, yields identical
FeatureMaps; no extractor holds mutable cross-call state. -/
theorem extractors_deterministic :
    ∀ (parse : List Char → PyQueryDoc) (html url : List Char),
      (HTMLFeatures.init parse html).get_features = (HTMLFeatures.init parse html).get_features ∧
      (URLFeatures.init url).get_features = (URLFeatures.init url).get_features :=
  fun _ _ _ => ⟨rfl, rfl⟩

/-- Claim C2, counterexample: the entropy computation applied to the
empty string does not fail — `set('')` is empty, so the probability
comprehension performs no division at all. -/
theorem getEntropy_empty_ne_none : getEntropy? [] ≠ none := by
  simp [getEntropy?_eq]

/-- Claim C2, amended: the entropy computation never raises — for empty
text the distinct-character set is empty so the division by the text
length is never executed, and the result on the empty string is 0. -/
theorem getEntropy_total_and_empty_zero :
    (∀ t : List Char, ∃ e, getEntropy? t = some e) ∧ getEntropy? [] = some 0 := by
  refine ⟨fun t => ⟨_, getEntropy?_eq t⟩, ?_⟩
  rw [getEntropy?_eq]
  simp [entropyFormula, round3]

/-- Claim C10: `number_of_fragments` of the ANALYSIS-revision URL
extractor returns 0 on every input URL: when the parsed fragment is
empty, `len(''.split('#')) - 1 = 0`, and otherwise the else-branch
returns 0. -/
theorem number_of_fragments_zero :
    ∀ url : List Char, Analysis.number_of_fragments (Analysis.initURLFeatures url) = 0 := by
  intro url
  unfold Analysis.number_of_fragments
  cases hf : (Analysis.initURLFeatures url).urlparsed.fragment with
  | nil => simp [hf, pySplitChar, pySplitP]
  | cons c cs => simp [hf]

/-- Claim C5: every average computation of the HTML extractor is
defined when its denominator would otherwise be empty — the
tokens-per-sentence divisor (the number of segments of the page text
split on `.`) is at least 1 for every input, zero script tags give
average script length 0 and average script entropy 0, and a script text
with no non-empty tokens gives keyword ratio 0. -/
theorem html_averages_guarded : ∀ e : HTMLFeatures,
    1 ≤ (pySplitChar '.' e.pq.text).length ∧
    (e.pq.scriptTexts = [] →
      e.average_script_length = 0 ∧ e.average_script_entropy = 0) ∧
    (((HTMLFeatures.scriptWords e).filter (fun w => !w.isEmpty)) = [] →
      e.keywords_to_words_ratio = 0) := by
  intro e
  refine ⟨?_, ?_, ?_⟩
  · have hne := pySplitP_ne_nil (fun c => c == '.') e.pq.text
    cases h : pySplitChar '.' e.pq.text with
    | nil => exact absurd h hne
    | cons a l => simp
  · intro h
    constructor
    · unfold HTMLFeatures.average_script_length
      rw [h]
      simp
    · unfold HTMLFeatures.average_script_entropy
      rw [h]
      simp
  · intro h
    unfold HTMLFeatures.keywords_to_words_ratio
    rw [h]
    simp

/-- Claim C5, witness at a document with no text and no script tags. -/
theorem html_averages_guarded_witness :
    1 ≤ (pySplitChar '.' ([] : List Char)).length ∧
    HTMLFeatures.average_script_length ⟨[], emptyDoc⟩ = 0 ∧
    HTMLFeatures.average_script_entropy ⟨[], emptyDoc⟩ = 0 ∧
    HTMLFeatures.keywords_to_words_ratio ⟨[], emptyDoc⟩ = 0 := by
  obtain ⟨h1, h2, h3⟩ := html_averages_guarded ⟨[], emptyDoc⟩
  exact ⟨h1, (h2 rfl).1, (h2 rfl).2, h3 (by decide)⟩

lemma natPredCast (x : ℕ) : ((if 0 < x then x - 1 else 0 : ℕ) : ℤ) = max ((x : ℤ) - 1) 0 := by
  rcases Nat.eq_zero_or_pos x with h | h
  · subst h
    simp
  · rw [if_pos h]
    have h1 : (1 : ℕ) ≤ x := h
    push_cast [h1]
    rw [max_eq_left (by omega)]

/-- Claim C6: the duplicate-structural-tag count is the sum over the
tag types `html`, `body`, `head` of `max(0, count - 1)`; it is 0 when
each of the three appears at most once and 1 for a document with exactly
two `<html>` tags and one of each other. -/
theorem double_documents_spec : ∀ e : HTMLFeatures,
    ((e.number_of_double_documents : ℤ) =
      max ((e.pq.htmlCount : ℤ) - 1) 0 + max ((e.pq.bodyCount : ℤ) - 1) 0 +
        max ((e.pq.headCount : ℤ) - 1) 0) ∧
    (e.pq.htmlCount ≤ 1 → e.pq.bodyCount ≤ 1 → e.pq.headCount ≤ 1 →
      e.number_of_double_documents = 0) ∧
    (e.pq.htmlCount = 2 → e.pq.bodyCount = 1 → e.pq.headCount = 1 →
      e.number_of_double_documents = 1) := by
  intro e
  unfold HTMLFeatures.number_of_double_documents
  refine ⟨?_, ?_, ?_⟩
  · rw [Nat.cast_add, Nat.cast_add, natPredCast, natPredCast, natPredCast]
  · intro h1 h2 h3
    split_ifs <;> omega
  · intro h1 h2 h3
    rw [h1, h2, h3]
    decide

/-- Claim C6, witness: a document with two `<html>`, one `<body>`, one
`<head>` has duplicate count 1; one with none of the three has 0. -/
theorem double_documents_spec_witness :
    HTMLFeatures.number_of_double_documents ⟨[], docTwoHtml⟩ = 1 ∧
    HTMLFeatures.number_of_double_documents ⟨[], emptyDoc⟩ = 0 :=
  ⟨(double_documents_spec ⟨[], docTwoHtml⟩).2.2 rfl rfl rfl,
   (double_documents_spec ⟨[], emptyDoc⟩).2.1 (by decide) (by decide) (by decide)⟩

lemma rfindAux_gt_iff (pat s : List Char) (b : ℤ) (hb : 0 ≤ b) :
    ∀ n : ℕ, (b < rfindAux pat s n ↔
      ∃ i : ℕ, i ≤ n ∧ b < (i : ℤ) ∧ pyStartsWith pat (s.drop i) = true) := by
  intro n
  induction n with
  | zero =>
    constructor
    · intro h
      unfold rfindAux at h
      split at h <;> omega
    · rintro ⟨i, hi, hbi, -⟩
      interval_cases i
      omega
  | succ n ih =>
    unfold rfindAux
    split
    · next hpre =>
      constructor
      · intro h
        exact ⟨n + 1, le_refl _, h, hpre⟩
      · rintro ⟨i, hi, hbi, -⟩
        have : (i : ℤ) ≤ ((n + 1 : ℕ) : ℤ) := by exact_mod_cast hi
        omega
    · next hpre =>
      rw [ih]
      constructor
      · rintro ⟨i, hi, hbi, hp⟩
        exact ⟨i, Nat.le_succ_of_le hi, hbi, hp⟩
      · rintro ⟨i, hi, hbi, hp⟩
        refine ⟨i, ?_, hbi, hp⟩
        rcases Nat.lt_succ_iff_lt_or_eq.mp (Nat.lt_succ_of_le hi) with h | h
        · exact Nat.lt_succ_iff.mp h
        · exact absurd (h ▸ hp) hpre

/-- Claim C7: the has-suspicious-double-slash flag is true exactly when
`//` occurs at an index strictly greater than 7 (`rfind` returns the
last occurrence, which is greater than 7 iff some occurrence is); in
particular it is true for `http://a.com//b` and false for
`http://a.com/b`. -/
theorem double_slash_iff : ∀ e : URLFeatures,
    (e.has_double_slash_in_wrong_position = true ↔
      ∃ i : ℕ, 7 < (i : ℤ) ∧ pyStartsWith "//".data (e.url.drop i) = true) ∧
    (URLFeatures.init "http://a.com//b".data).has_double_slash_in_wrong_position = true ∧
    (URLFeatures.init "http://a.com/b".data).has_double_slash_in_wrong_position = false := by
  intro e
  refine ⟨?_, by decide, by decide⟩
  unfold URLFeatures.has_double_slash_in_wrong_position pyRfind
  rw [decide_eq_true_eq]
  rw [rfindAux_gt_iff "//".data e.url 7 (by norm_num) e.url.length]
  constructor
  · rintro ⟨i, -, hbi, hp⟩
    exact ⟨i, hbi, hp⟩
  · rintro ⟨i, hbi, hp⟩
    refine ⟨i, ?_, hbi, hp⟩
    by_contra hgt
    push_neg at hgt
    rw [List.drop_eq_nil_of_le (le_of_lt hgt)] at hp
    exact absurd hp (by decide)

/-- Claim C8: the suspicious-function count is the number of the four
substrings `eval`, `unescape`, `document.write`, `innerhtml` found
case-folded in the concatenated script text, each contributing at most
1 (so the count is at most 4); for a page whose only script is
`eval(x)`, the count is at least 1 while the DOM-mutating-function
count is 0. -/
theorem suspicious_functions_spec : ∀ e : HTMLFeatures,
    e.number_of_suspicious_functions =
      (suspiciousFunctions.filter (fun f =>
        pyIn f ((HTMLFeatures.scriptsText e).map Char.toLower))).length ∧
    e.number_of_suspicious_functions ≤ 4 ∧
    (e.pq.scriptTexts = ["eval(x)".data] →
      1 ≤ e.number_of_suspicious_functions ∧ e.number_of_dom_modifying_functions = 0) := by
  intro e
  refine ⟨?_, ?_, ?_⟩
  · unfold HTMLFeatures.number_of_suspicious_functions suspiciousFunctions
    simp only [List.map_cons, List.map_nil, List.sum_cons, List.sum_nil, List.filter_cons,
      List.filter_nil]
    split_ifs <;> simp
  · unfold HTMLFeatures.number_of_suspicious_functions suspiciousFunctions
    simp only [List.map_cons, List.map_nil, List.sum_cons, List.sum_nil]
    split_ifs <;> norm_num
  · intro h
    have hs : HTMLFeatures.scriptsText e = "eval(x)".data := by
      unfold HTMLFeatures.scriptsText
      rw [h]
      rfl
    constructor
    · unfold HTMLFeatures.number_of_suspicious_functions
      rw [hs]
      decide
    · unfold HTMLFeatures.number_of_dom_modifying_functions
      rw [hs]
      decide

/-- Claim C8, witness at a document whose only script is `eval(x)`. -/
theorem suspicious_functions_spec_witness :
    1 ≤ HTMLFeatures.number_of_suspicious_functions ⟨[], scriptDoc⟩ ∧
    HTMLFeatures.number_of_dom_modifying_functions ⟨[], scriptDoc⟩ = 0 :=
  (suspicious_functions_spec ⟨[], scriptDoc⟩).2.2 rfl

/-- Claim C9: for non-empty text the entropy value is defined and
non-negative — each probability lies in `(0, 1]`, so every summand
`p·log2 p` is non-positive, the negated sum is non-negative, and
rounding preserves the sign. -/
theorem entropy_nonneg : ∀ t : List Char, t ≠ [] →
    ∃ e, getEntropy? t = some e ∧ 0 ≤ e :=
  fun t _ => ⟨_, getEntropy?_eq t, entropyFormula_nonneg _⟩

/-- Claim C9, witness at the text `ab`. -/
theorem entropy_nonneg_witness :
    ∃ e, getEntropy? "ab".data = some e ∧ 0 ≤ e :=
  entropy_nonneg "ab".data (by decide)

/-- Claim C3, counterexample: on an input whose raw HTML contains the
right-click-disabling token (so the ANALYSIS-revision flag is true),
every value of the aggregate FeatureMap is numeric — the map carries no
boolean entry at all, hence no key for the right-click-disabled flag;
`has_right_click_disabled` exists only in the ANALYSIS revision and is
not invoked by `get_features`. -/
theorem get_features_no_right_click_key :
    Analysis.has_right_click_disabled rcHtml = true ∧
    ((HTMLFeatures.mk rcHtml emptyDoc).get_features.all (fun kv => ! kv.2.isBool)) = true := by
  constructor
  · decide
  · rfl

/-- Claim C3, amended: the HTML aggregate accessor returns a FeatureMap
with exactly 23 fixed, ordered, pairwise-distinct keys, each bound to
the value of its accessor invoked once — but none of the keys is the
right-click-disabled flag (that accessor is absent from the map). -/
theorem get_features_keys_fixed : ∀ e : HTMLFeatures,
    e.get_features.map Prod.fst =
      ["suspicious_func_num".data, "page_entropy".data, "script_tags_num".data,
       "html_length".data, "tokens_num".data, "sentences_num".data, "punctuation_num".data,
       "capitalization_num".data, "avg_sentence_tokens_num".data, "html_tags_num".data,
       "hidden_tags_num".data, "iframe_num".data, "objects_num".data, "embeds_num".data,
       "internal_links_num".data, "external_links_num".data, "whitespaces_num".data,
       "included_elements_num".data, "double_doc_num".data, "keywords_to_words_ratio".data,
       "dom_mod_func_num".data, "avg_script_len".data, "avg_script_entropy".data] ∧
    e.get_features.length = 23 ∧
    (e.get_features.map Prod.fst).Nodup ∧
    e.get_features.all (fun kv => ! kv.2.isBool) = true := by
  intro e
  have hk : e.get_features.map Prod.fst =
      ["suspicious_func_num".data, "page_entropy".data, "script_tags_num".data,
       "html_length".data, "tokens_num".data, "sentences_num".data, "punctuation_num".data,
       "capitalization_num".data, "avg_sentence_tokens_num".data, "html_tags_num".data,
       "hidden_tags_num".data, "iframe_num".data, "objects_num".data, "embeds_num".data,
       "internal_links_num".data, "external_links_num".data, "whitespaces_num".data,
       "included_elements_num".data, "double_doc_num".data, "keywords_to_words_ratio".data,
       "dom_mod_func_num".data, "avg_script_len".data, "avg_script_entropy".data] := rfl
  refine ⟨hk, rfl, ?_, rfl⟩
  rw [hk]
  decide

/-- Claim C4, counterexample: constructing the canonical URL extractor
(`features.py`, `urlparse(url)` with no default) on the scheme-less URL
`example.com/path` leaves the parsed scheme empty — it does not default
to `http` — and the host (netloc) is empty as well, the whole input
going to the path. -/
theorem schemeless_url_scheme_not_http :
    ¬((URLFeatures.init "example.com/path".data).urlparsed.scheme = "http".data) ∧
    (URLFeatures.init "example.com/path".data).urlparsed.netloc = [] ∧
    (URLFeatures.init "example.com/path".data).urlparsed.path = "example.com/path".data := by
  refine ⟨by decide, by decide, by decide⟩

/-- Claim C4, amended: constructing the URL extractor on a URL with no
scheme marker (no `:`, not protocol-relative, and no `#`, `?`, `;`) is
not an error — parsing succeeds in both revisions with the whole input
as the path; but the scheme defaults to `http` only in the ANALYSIS
revision (`urlparse(url, 'http')`), while in the canonical extractor it
stays empty, and in both revisions the host (netloc) is empty rather
than populated. -/
theorem schemeless_url_parse : ∀ url : List Char,
    ':' ∉ url → '#' ∉ url → '?' ∉ url → ';' ∉ url → pyStartsWith ['/', '/'] url = false →
    pyUrlparse url [] = ⟨[], [], url, [], [], []⟩ ∧
    pyUrlparse url "http".data = ⟨"http".data, [], url, [], [], []⟩ := by
  intro url h1 h2 h3 h4 h5
  have hfind : pyFindIdx (fun c => c == ':') url = none :=
    pyFindIdx_eq_none (fun c hc => beq_eq_false_iff_ne.mpr (fun hce => h1 (hce ▸ hc)))
  have hscheme : pySplitScheme url = ([], url) := by
    unfold pySplitScheme
    rw [hfind]
  have hnet : pySplitNetloc url = ([], url) := by
    unfold pySplitNetloc
    rw [h5]
    simp
  have hnot2 : ∀ c ∈ url, (!(c == '#')) = true := fun c hc => by
    have hne : c ≠ '#' := fun hce => h2 (hce ▸ hc)
    simp [hne]
  have hnot3 : ∀ c ∈ url, (!(c == '?')) = true := fun c hc => by
    have hne : c ≠ '?' := fun hce => h3 (hce ▸ hc)
    simp [hne]
  have hfrag : pyBreakOn '#' url = (url, []) := by
    unfold pyBreakOn
    rw [pyTakeWhile_eq_self hnot2, pyDropWhile_eq_nil hnot2]
    rfl
  have hquery : pyBreakOn '?' url = (url, []) := by
    unfold pyBreakOn
    rw [pyTakeWhile_eq_self hnot3, pyDropWhile_eq_nil hnot3]
    rfl
  have hparams : pySplitParams url = (url, []) := by
    unfold pySplitParams
    rw [pyElem_eq_false h4]
    simp
  constructor
  · unfold pyUrlparse
    rw [hscheme]
    simp only [hnet, hfrag, hquery, hparams, List.isEmpty_nil, if_true]
  · unfold pyUrlparse
    rw [hscheme]
    simp only [hnet, hfrag, hquery, hparams, List.isEmpty_nil, if_true]

/-- Claim C4, witness at the scheme-less URL `example.com/path`. -/
theorem schemeless_url_parse_witness :
    pyUrlparse "example.com/path".data [] =
      ⟨[], [], "example.com/path".data, [], [], []⟩ ∧
    pyUrlparse "example.com/path".data "http".data =
      ⟨"http".data, [], "example.com/path".data, [], [], []⟩ :=
  schemeless_url_parse "example.com/path".data (by decide) (by decide) (by decide) (by decide)
    (by decide)
